import Mathlib

/-!
Shallow embedding of the chunked-upload session protocol of the
file-transfer repository (Go backend, WebSocket upload handler in
`handlers`, checksum/file services in `services`).

Conventions of the embedding:
* Byte slices (`[]byte`) are `List Nat`.
* Go maps are association lists with a last-write-wins insert
  (`alInsert`); a Go map's `len` is the list length, which is the number
  of distinct keys because every buffer is built exclusively by
  `alInsert`.
* The SHA-256 hex digest (`crypto/sha256` + `encoding/hex`, an external
  library) is abstracted as a function parameter `digest : List Nat → String`;
  the handlers only ever compare digests for string equality, exactly as
  the source does.
* The metadata store (`IFileRepository`, backed by GORM) is modelled as
  an in-memory `Repo`; its operations always succeed, so the
  collaborator-failure error branches of the source are not reachable in
  the model.
* The filesystem is a map from path to byte content (`Fs`); `os.Create`
  truncates, the chunk loop appends, `os.MkdirAll` and `os.ReadFile`
  always succeed in the model.
* `float64` progress percentages are modelled as `ℚ` (exact rational
  arithmetic; the claims at issue concern values like 200 vs 100, which
  are exact in both systems).
* JSON / base64 decoding are external-boundary steps; their fallibility
  is modelled by `Option` payload fields.
-/

namespace FileTransfer

/-- Raw bytes (`[]byte` in Go): a list of byte values. -/
abbrev Bytes := List Nat

/-- Last-write-wins insert into an association list: replaces the first
binding of the key if present, otherwise appends at the end.  This is the
behaviour of a Go map assignment `m[k] = v`. -/
def alInsert {α β : Type} [DecidableEq α] : List (α × β) → α → β → List (α × β)
  | [], k, v => [(k, v)]
  | (j, w) :: rest, k, v =>
      if j = k then (k, v) :: rest else (j, w) :: alInsert rest k v

/-- Removal of a key from an association list: the behaviour of Go's
`delete(m, k)`. -/
def alErase {α β : Type} [DecidableEq α] : List (α × β) → α → List (α × β)
  | [], _ => []
  | (j, w) :: rest, k =>
      if j = k then alErase rest k else (j, w) :: alErase rest k

/-- The chunk buffer of one in-flight upload: Go's `map[int][]byte`
(chunk index → raw chunk bytes).  Chunk indices are `Int` because the Go
field `chunk_index` is a signed `int` taken verbatim from the client. -/
abbrev Buf := List (Int × Bytes)

/-- The in-memory filesystem: path → file content. -/
abbrev Fs := List (String × Bytes)

/-- The durable upload record, `models.FileUpload` (the fields the
protocol reads or writes; GORM bookkeeping fields are omitted). -/
structure FileUpload where
  id : Nat
  userID : Nat
  folderID : Option Nat
  fileName : String
  fileType : String
  fileSize : Int
  totalChunks : Int
  checksum : String
  status : String
  filePath : String
  relPath : String
deriving Repr, DecidableEq

/-- The metadata store behind `types.IFileRepository`: the stored upload
records, the next fresh id handed out by `Create`, and the per-upload
verified-chunk indices served by `GetVerifiedChunkIndices`. -/
structure Repo where
  records : List FileUpload
  nextId : Nat
  verifiedChunks : List (Nat × List Int)
deriving Repr, DecidableEq

/-- Embedding of `repo.GetByID`: find the record with the given id. -/
def Repo.getByID (repo : Repo) (id : Nat) : Option FileUpload :=
  repo.records.find? (fun r => r.id == id)

/-- Embedding of `repo.Create`: assign the next fresh id to the record and store it;
returns the updated store and the assigned id. -/
def Repo.create (repo : Repo) (fu : FileUpload) : Repo × Nat :=
  let fu := { fu with id := repo.nextId }
  ({ repo with records := repo.records ++ [fu], nextId := repo.nextId + 1 },
   fu.id)

/-- Embedding of `repo.Update`: replace the stored record bearing the same id. -/
def Repo.update (repo : Repo) (fu : FileUpload) : Repo :=
  { repo with
    records := repo.records.map (fun r => if r.id = fu.id then fu else r) }

/-- Embedding of `repo.GetVerifiedChunkIndices`: the verified chunk indices recorded
for the given upload id (empty when none are recorded). -/
def Repo.getVerifiedChunkIndices (repo : Repo) (id : Nat) : List Int :=
  (repo.verifiedChunks.lookup id).getD []

/-- Payload of an `init` message (`initMsg`), already JSON-decoded. -/
structure InitMsg where
  fileName : String
  fileType : String
  fileSize : Int
  checksum : String
  folderID : Option Nat
  relPath : String
deriving Repr, DecidableEq

/-- Payload of a `chunk` message (`chunkMsg`).  The `data` field holds
the result of base64-decoding the transported payload: `none` models a
string that is not valid base64. -/
structure ChunkMsg where
  fileUploadID : Nat
  chunkIndex : Int
  totalChunks : Int
  checksum : String
  data : Option Bytes
deriving Repr, DecidableEq

/-- Payload of a `complete` message (`completeMsg`). -/
structure CompleteMsg where
  fileUploadID : Nat
deriving Repr, DecidableEq

/-- One inbound wire message after envelope classification: the
`{type, data}` envelope either fails to parse (`malformed`), carries an
unknown `type`, or carries one of the three known types whose payload
may itself fail to parse (`none`). -/
inductive Envelope where
  | malformed
  | unknown (t : String)
  | init (payload : Option InitMsg)
  | chunk (payload : Option ChunkMsg)
  | complete (payload : Option CompleteMsg)
deriving Repr, DecidableEq

/-- One outbound event written to the connection (`init_ack`,
`progress`, `error`, `done`). -/
inductive Event where
  | initAck (fileUploadId : Nat) (fileName : String)
  | progress (fileUploadId : Nat) (uploaded : Nat) (total : Int)
      (percent : ℚ) (status : String)
  | error (message : String)
  | done (file : FileUpload)
deriving Repr, DecidableEq

/-- The per-connection mutable state of `HandleUpload`: the
`chunks : map[uint]map[int][]byte` buffer map and the
`totals : map[uint]int` map (written on every chunk, never read by the
complete handler). -/
structure SessionState where
  chunks : List (Nat × Buf)
  totals : List (Nat × Int)
deriving Repr, DecidableEq

/-- Embedding of `verifyChecksum` / `ChecksumService.Verify`: compare the hex digest
of the data with the expected string. -/
def verifyChecksum (digest : Bytes → String) (data : Bytes)
    (expected : String) : Bool :=
  digest data == expected

/-- Output-path construction of `handleComplete`: the configured upload
directory, then the user id, then (when present) the folder id, then the
relative path when non-empty, otherwise the file name. -/
def buildPath (dir : String) (uid : Nat) (fu : FileUpload) : String :=
  let userDir := dir ++ "/" ++ toString uid
  let userDir :=
    match fu.folderID with
    | some fid => userDir ++ "/" ++ toString fid
    | none => userDir
  if fu.relPath ≠ "" then userDir ++ "/" ++ fu.relPath
  else userDir ++ "/" ++ fu.fileName

/-- The reconstruction loop of `handleComplete` (and of
`assembleChunks` / `FileService.ReconstructFile`): iterate `i` upward
while `i < total`, appending chunk `i`; stop at the first missing index.
Returns the bytes written so far and the missing index, if any.  The
`fuel` argument makes the recursion structural; `assembleChunks` supplies
`total.toNat`, which is exactly the number of iterations of the Go
loop. -/
def assembleChunksAux (fileChunks : Buf) (total : Int) :
    Nat → Nat → Bytes × Option Nat
  | 0, _ => ([], none)
  | fuel + 1, i =>
      if (i : Int) < total then
        match fileChunks.lookup (i : Int) with
        | none => ([], some i)
        | some c =>
            let r := assembleChunksAux fileChunks total fuel (i + 1)
            (c ++ r.1, r.2)
      else ([], none)

/-- Reconstruction of the full byte stream from the buffer: the content
written to the output file, plus the first missing index when the loop
fails fast. -/
def assembleChunks (fileChunks : Buf) (total : Int) : Bytes × Option Nat :=
  assembleChunksAux fileChunks total total.toNat 0

/-- The `init` handler (`handleInit`): decode the payload, create a
`pending` record owned by the session user, install an empty chunk
buffer under the new id, and acknowledge. -/
def handleInit (uid : Nat) (payload : Option InitMsg)
    (st : SessionState) (repo : Repo) :
    SessionState × Repo × List Event :=
  match payload with
  | none => (st, repo, [.error "invalid init payload"])
  | some req =>
      let fu : FileUpload :=
        { id := 0, userID := uid, folderID := req.folderID,
          fileName := req.fileName, fileType := req.fileType,
          fileSize := req.fileSize, totalChunks := 0,
          checksum := req.checksum, status := "pending",
          filePath := "", relPath := req.relPath }
      let (repo, newId) := repo.create fu
      let st := { st with chunks := alInsert st.chunks newId ([] : Buf) }
      (st, repo, [.initAck newId req.fileName])

/-- The `chunk` handler (`handleChunk`): decode, verify the per-chunk
digest, require a prior `init` for the id, store the bytes
(last-write-wins), record the declared total, advance the stored record
to `uploading` (freezing its `totalChunks` on first non-zero write), and
report progress.  The session user id is a parameter of the Go handler
but is never consulted by its body. -/
def handleChunk (digest : Bytes → String) (uid : Nat)
    (payload : Option ChunkMsg) (st : SessionState) (repo : Repo) :
    SessionState × Repo × List Event :=
  match payload with
  | none => (st, repo, [.error "invalid chunk payload"])
  | some req =>
      match req.data with
      | none =>
          (st, repo,
           [.error ("invalid base64 in chunk " ++ toString req.chunkIndex)])
      | some rawData =>
          if digest rawData ≠ req.checksum then
            (st, repo,
             [.error ("checksum mismatch chunk " ++ toString req.chunkIndex)])
          else
            match st.chunks.lookup req.fileUploadID with
            | none => (st, repo, [.error "unknown file_upload_id — send init first"])
            | some fileChunks =>
                let fileChunks := alInsert fileChunks req.chunkIndex rawData
                let st :=
                  { chunks := alInsert st.chunks req.fileUploadID fileChunks,
                    totals := alInsert st.totals req.fileUploadID req.totalChunks }
                let repo :=
                  match repo.getByID req.fileUploadID with
                  | some fu =>
                      let fu :=
                        if fu.totalChunks = 0 then
                          { fu with totalChunks := req.totalChunks }
                        else fu
                      repo.update { fu with status := "uploading" }
                  | none => repo
                let uploaded := fileChunks.length
                let pct : ℚ := (uploaded : ℚ) / (req.totalChunks : ℚ) * 100
                (st, repo,
                 [.progress req.fileUploadID uploaded req.totalChunks pct
                    "uploading"])

/-- Effective total of `handleComplete`: the record's frozen
`totalChunks`, falling back to the buffer size when it was never set. -/
def effTotal (fu : FileUpload) (fileChunks : Buf) : Int :=
  if fu.totalChunks = 0 then (fileChunks.length : Int) else fu.totalChunks

/-- The in-handler record adjustment of `handleComplete`: when the
record never froze a total, `fu.TotalChunks` is set to the buffer size
(persisted only if the handler later calls `Update`). -/
def freezeTotal (fu : FileUpload) (fileChunks : Buf) : FileUpload :=
  if fu.totalChunks = 0 then
    { fu with totalChunks := (fileChunks.length : Int) }
  else fu

/-- The `complete` handler (`handleComplete`): look up the record,
enforce ownership, require a non-empty buffer, resolve the effective
total (falling back to the buffer size when the record never froze one),
truncate-create the output file at the final path, stream the chunks in
index order failing fast on a gap, then verify the whole-file digest:
on mismatch the record transitions to `failed`; on match it transitions
to `completed`, its path is persisted, and the buffer is discarded. -/
def handleComplete (digest : Bytes → String) (dir : String) (uid : Nat)
    (payload : Option CompleteMsg) (st : SessionState) (repo : Repo)
    (fs : Fs) : SessionState × Repo × Fs × List Event :=
  match payload with
  | none => (st, repo, fs, [.error "invalid complete payload"])
  | some req =>
      match repo.getByID req.fileUploadID with
      | none => (st, repo, fs, [.error "file upload not found"])
      | some fu =>
          if fu.userID ≠ uid then (st, repo, fs, [.error "forbidden"])
          else
            match st.chunks.lookup req.fileUploadID with
            | none => (st, repo, fs, [.error "no chunks received"])
            | some fileChunks =>
                if fileChunks.length = 0 then
                  (st, repo, fs, [.error "no chunks received"])
                else
                  let total := effTotal fu fileChunks
                  let fu := freezeTotal fu fileChunks
                  let outPath := buildPath dir uid fu
                  let written := assembleChunks fileChunks total
                  let fs := alInsert fs outPath written.1
                  match written.2 with
                  | some i =>
                      (st, repo, fs, [.error ("missing chunk " ++ toString i)])
                  | none =>
                      let fileData := (fs.lookup outPath).getD []
                      if digest fileData ≠ fu.checksum then
                        let fu := { fu with status := "failed" }
                        (st, repo.update fu, fs,
                         [.error "file checksum mismatch"])
                      else
                        let fu :=
                          { fu with status := "completed", filePath := outPath }
                        ({ st with chunks := alErase st.chunks req.fileUploadID },
                         repo.update fu, fs, [.done fu])

/-- One iteration of the session loop of `HandleUpload`: classify the
envelope and dispatch to exactly one handler; malformed envelopes and
unknown types yield a non-fatal error event. -/
def step (digest : Bytes → String) (dir : String) (uid : Nat)
    (env : Envelope) (st : SessionState) (repo : Repo) (fs : Fs) :
    SessionState × Repo × Fs × List Event :=
  match env with
  | .malformed => (st, repo, fs, [.error "invalid message format"])
  | .unknown t => (st, repo, fs, [.error ("unknown message type: " ++ t)])
  | .init p =>
      let (st, repo, evs) := handleInit uid p st repo
      (st, repo, fs, evs)
  | .chunk p =>
      let (st, repo, evs) := handleChunk digest uid p st repo
      (st, repo, fs, evs)
  | .complete p => handleComplete digest dir uid p st repo fs

/-- Response of the REST `VerifyChunks` endpoint. -/
inductive VerifyResp where
  | badRequest (msg : String)
  | ok (uploadedChunks : List Int) (total : Nat)
deriving Repr, DecidableEq

/-- The REST `FileHandler.VerifyChunks` endpoint: parse the id parameter
and return the verified chunk indices for that upload id.  The
authenticated caller identity (`uid`, available from the request token)
is accepted here as a parameter to show that the handler body never
consults it: no ownership comparison is performed. -/
def verifyChunksHandler (uid : Nat) (repo : Repo)
    (idParam : Option Nat) : VerifyResp :=
  match idParam with
  | none => .badRequest "invalid id"
  | some id =>
      let idx := repo.getVerifiedChunkIndices id
      .ok idx idx.length

/-- Structural worker for `splitChunks`: the fuel bounds the number of
chunks produced and `splitChunks` supplies the input length, which always
suffices because every chunk consumes at least one byte. -/
def splitChunksAux (size : Nat) : Nat → List Nat → List (List Nat)
  | _, [] => []
  | 0, _ :: _ => []
  | fuel + 1, b :: bs =>
      (b :: bs.take (size - 1)) :: splitChunksAux size fuel (bs.drop (size - 1))

/-- Client-side chunking (the frontend slices the file into consecutive
ranges of `size` bytes): the first chunk is the first `size` bytes, the
rest is split recursively.  For a positive `size` every chunk except
possibly the last has exactly `size` bytes. -/
def splitChunks (size : Nat) (B : List Nat) : List (List Nat) :=
  splitChunksAux size B.length B

/-- Pair each chunk with its 0-based index (as an `Int` chunk index),
starting at `start`. -/
def indexChunks : List Bytes → Int → List (Int × Bytes)
  | [], _ => []
  | c :: rest, start => (start, c) :: indexChunks rest (start + 1)

/-- Store a list of (index, bytes) pairs into a buffer in the given
order, each by the same last-write-wins map assignment `handleChunk`
uses. -/
def insertAll (buf : Buf) (l : List (Int × Bytes)) : Buf :=
  l.foldl (fun b p => alInsert b p.1 p.2) buf

/-- A concrete stand-in digest function used to evaluate the model on
closed inputs (the real system uses SHA-256, abstracted as a parameter
throughout). -/
def toyDigest (b : Bytes) : String :=
  toString b.length ++ "-" ++ toString (b.foldl (fun a x => a + 3 * x) 7)

/-! ### Association-list facts -/

theorem lookup_cons {α β : Type} [DecidableEq α] (k j : α) (w : β)
    (rest : List (α × β)) :
    ((j, w) :: rest).lookup k = if k = j then some w else rest.lookup k := by
  by_cases h : k = j
  · simp [List.lookup, h]
  · have e : (k == j) = false := by
      simpa using h
    simp [List.lookup, e, h]

theorem lookup_alInsert_self {α β : Type} [DecidableEq α]
    (l : List (α × β)) (k : α) (v : β) :
    (alInsert l k v).lookup k = some v := by
  induction l with
  | nil => simp [alInsert, lookup_cons]
  | cons p rest ih =>
      obtain ⟨j, w⟩ := p
      by_cases h : j = k
      · simp [alInsert, h, lookup_cons]
      · simp [alInsert, h, lookup_cons, Ne.symm h, ih]

theorem lookup_alInsert_ne {α β : Type} [DecidableEq α]
    (l : List (α × β)) (j k : α) (v : β) (h : j ≠ k) :
    (alInsert l j v).lookup k = l.lookup k := by
  induction l with
  | nil => simp [alInsert, lookup_cons, Ne.symm h]
  | cons p rest ih =>
      obtain ⟨i, w⟩ := p
      by_cases hij : i = j
      · subst hij
        simp [alInsert, lookup_cons, Ne.symm h]
      · simp [alInsert, hij, lookup_cons, ih]

theorem lookup_alErase_self {α β : Type} [DecidableEq α]
    (l : List (α × β)) (k : α) :
    (alErase l k).lookup k = none := by
  induction l with
  | nil => simp [alErase, List.lookup]
  | cons p rest ih =>
      obtain ⟨j, w⟩ := p
      by_cases h : j = k
      · simp [alErase, h, ih]
      · simp [alErase, h, lookup_cons, Ne.symm h, ih]

theorem length_alInsert_alInsert_same {α β : Type} [DecidableEq α]
    (l : List (α × β)) (k : α) (v w : β) :
    (alInsert (alInsert l k v) k w).length = (alInsert l k v).length := by
  induction l with
  | nil => simp [alInsert]
  | cons p rest ih =>
      obtain ⟨j, u⟩ := p
      by_cases h : j = k
      · simp [alInsert, h]
      · simp [alInsert, h, ih]

theorem insertAll_cons (buf : Buf) (p : Int × Bytes)
    (rest : List (Int × Bytes)) :
    insertAll buf (p :: rest) = insertAll (alInsert buf p.1 p.2) rest := rfl

theorem lookup_insertAll_not_mem (l : List (Int × Bytes)) (buf : Buf)
    (k : Int) (h : k ∉ l.map Prod.fst) :
    (insertAll buf l).lookup k = buf.lookup k := by
  induction l generalizing buf with
  | nil => simp [insertAll]
  | cons p rest ih =>
      obtain ⟨j, w⟩ := p
      simp only [List.map_cons, List.mem_cons] at h
      push_neg at h
      rw [insertAll_cons]
      rw [ih _ h.2]
      exact lookup_alInsert_ne _ _ _ _ (Ne.symm h.1)

theorem lookup_insertAll_mem (l : List (Int × Bytes)) (buf : Buf)
    (k : Int) (v : Bytes) (hnd : (l.map Prod.fst).Nodup)
    (hm : (k, v) ∈ l) :
    (insertAll buf l).lookup k = some v := by
  induction l generalizing buf with
  | nil => simp at hm
  | cons p rest ih =>
      obtain ⟨j, w⟩ := p
      simp only [List.map_cons, List.nodup_cons] at hnd
      rcases List.mem_cons.mp hm with h | h
      · injection h with hk hv
        subst hk
        subst hv
        rw [insertAll_cons]
        rw [lookup_insertAll_not_mem _ _ _ hnd.1]
        exact lookup_alInsert_self _ _ _
      · rw [insertAll_cons]
        exact ih _ hnd.2 h

/-! ### Facts about client-side chunking -/

theorem flatten_splitChunksAux (size : Nat) :
    ∀ (fuel : Nat) (B : List Nat), B.length ≤ fuel →
      (splitChunksAux size fuel B).flatten = B := by
  intro fuel
  induction fuel with
  | zero =>
      intro B hB
      cases B with
      | nil => simp [splitChunksAux]
      | cons b bs => simp at hB
  | succ f ih =>
      intro B hB
      cases B with
      | nil => simp [splitChunksAux]
      | cons b bs =>
          have hdrop : (bs.drop (size - 1)).length ≤ f := by
            simp only [List.length_drop]
            simp only [List.length_cons] at hB
            omega
          simp [splitChunksAux, ih _ hdrop]

theorem flatten_splitChunks (size : Nat) (B : List Nat) :
    (splitChunks size B).flatten = B :=
  flatten_splitChunksAux size B.length B le_rfl

theorem indexChunks_keys_ge (cs : List Bytes) :
    ∀ (s k : Int), k ∈ (indexChunks cs s).map Prod.fst → s ≤ k := by
  induction cs with
  | nil => intro s k h; simp [indexChunks] at h
  | cons c rest ih =>
      intro s k h
      simp only [indexChunks, List.map_cons, List.mem_cons] at h
      rcases h with h | h
      · omega
      · have := ih (s + 1) k h
        omega

theorem indexChunks_keys_nodup (cs : List Bytes) :
    ∀ s : Int, ((indexChunks cs s).map Prod.fst).Nodup := by
  induction cs with
  | nil => intro s; simp [indexChunks]
  | cons c rest ih =>
      intro s
      simp only [indexChunks, List.map_cons, List.nodup_cons]
      refine ⟨fun h => ?_, ih (s + 1)⟩
      have := indexChunks_keys_ge rest (s + 1) s h
      omega

theorem indexChunks_mem (cs : List Bytes) :
    ∀ (s : Int) (j : Nat) (hj : j < cs.length),
      ((s + j : Int), cs.get ⟨j, hj⟩) ∈ indexChunks cs s := by
  induction cs with
  | nil => intro s j hj; simp at hj
  | cons c rest ih =>
      intro s j hj
      cases j with
      | zero => simp [indexChunks]
      | succ j =>
          simp only [indexChunks, List.mem_cons]
          right
          have h := ih (s + 1) j (by simpa using hj)
          have : s + 1 + (j : Int) = s + ((j : Nat) + 1 : Nat) := by
            push_cast
            ring
          rw [this] at h
          simpa using h

/-! ### Facts about the reconstruction loop -/

theorem assembleChunksAux_all_present (cs : List Bytes) :
    ∀ (s fuel : Nat) (buf : Buf) (total : Int),
      total = (s : Int) + cs.length →
      cs.length ≤ fuel →
      (∀ (j : Nat) (hj : j < cs.length),
          buf.lookup ((s + j : Nat) : Int) = some (cs.get ⟨j, hj⟩)) →
      assembleChunksAux buf total fuel s = (cs.flatten, none) := by
  induction cs with
  | nil =>
      intro s fuel buf total ht _ _
      cases fuel with
      | zero => simp [assembleChunksAux]
      | succ f =>
          have : ¬ ((s : Int) < total) := by simp at ht; omega
          simp [assembleChunksAux, this]
  | cons c rest ih =>
      intro s fuel buf total ht hf hp
      cases fuel with
      | zero => simp at hf
      | succ f =>
          have hlt : (s : Int) < total := by
            simp only [List.length_cons] at ht
            push_cast at ht
            omega
          have h0 : buf.lookup ((s : Nat) : Int) = some c := by
            have := hp 0 (by simp)
            simpa using this
          have hrec : assembleChunksAux buf total f (s + 1) = (rest.flatten, none) := by
            apply ih (s + 1) f buf total
            · simp only [List.length_cons] at ht
              push_cast at ht ⊢
              omega
            · simp only [List.length_cons] at hf
              omega
            · intro j hj
              have := hp (j + 1) (by simpa using hj)
              have harg : s + (j + 1) = s + 1 + j := by omega
              rw [harg] at this
              simpa using this
          simp [assembleChunksAux, hlt, h0, hrec]

theorem assembleChunksAux_gap (cs : List Bytes) :
    ∀ (s fuel : Nat) (buf : Buf) (total : Int),
      ((s + cs.length : Nat) : Int) < total →
      cs.length < fuel →
      (∀ (j : Nat) (hj : j < cs.length),
          buf.lookup ((s + j : Nat) : Int) = some (cs.get ⟨j, hj⟩)) →
      buf.lookup ((s + cs.length : Nat) : Int) = none →
      assembleChunksAux buf total fuel s = (cs.flatten, some (s + cs.length)) := by
  induction cs with
  | nil =>
      intro s fuel buf total hlt hf _ hmiss
      cases fuel with
      | zero => simp at hf
      | succ f =>
          simp only [List.length_nil, Nat.add_zero] at hlt hmiss
          simp [assembleChunksAux, hlt, hmiss]
  | cons c rest ih =>
      intro s fuel buf total hlt hf hp hmiss
      cases fuel with
      | zero => simp at hf
      | succ f =>
          have hslt : (s : Int) < total := by
            simp only [List.length_cons] at hlt
            push_cast at hlt
            omega
          have h0 : buf.lookup ((s : Nat) : Int) = some c := by
            have := hp 0 (by simp)
            simpa using this
          have hrec : assembleChunksAux buf total f (s + 1)
              = (rest.flatten, some (s + 1 + rest.length)) := by
            apply ih (s + 1) f buf total
            · simp only [List.length_cons] at hlt
              push_cast at hlt ⊢
              omega
            · simp only [List.length_cons] at hf
              omega
            · intro j hj
              have := hp (j + 1) (by simpa using hj)
              have harg : s + (j + 1) = s + 1 + j := by omega
              rw [harg] at this
              simpa using this
            · have harg : s + 1 + rest.length = s + (c :: rest).length := by
                simp
                omega
              rw [harg]
              exact hmiss
          have harg : s + 1 + rest.length = s + (c :: rest).length := by
            simp
            omega
          rw [harg] at hrec
          simp [assembleChunksAux, hslt, h0, hrec]

/-- Reconstruction succeeds and returns the concatenation in index order
whenever the buffer holds chunk `j` of `cs` at key `j` for every
`j < cs.length` and the total is exactly `cs.length`. -/
theorem assembleChunks_all_present (cs : List Bytes) (buf : Buf)
    (hp : ∀ (j : Nat) (hj : j < cs.length),
        buf.lookup (j : Int) = some (cs.get ⟨j, hj⟩)) :
    assembleChunks buf (cs.length : Int) = (cs.flatten, none) := by
  unfold assembleChunks
  have := assembleChunksAux_all_present cs 0 ((cs.length : Int)).toNat buf
    (cs.length : Int) (by simp) (by simp) (by simpa using hp)
  simpa using this

/-- Reconstruction fails fast at the first missing index: when the first
`cs.length` indices are present, index `cs.length` is missing, and the
total is larger, the loop writes exactly the chunks before the gap and
reports the gap index. -/
theorem assembleChunks_gap (cs : List Bytes) (buf : Buf) (total : Int)
    (hlt : (cs.length : Int) < total)
    (hp : ∀ (j : Nat) (hj : j < cs.length),
        buf.lookup (j : Int) = some (cs.get ⟨j, hj⟩))
    (hmiss : buf.lookup (cs.length : Int) = none) :
    assembleChunks buf total = (cs.flatten, some cs.length) := by
  unfold assembleChunks
  have hf : cs.length < total.toNat := by omega
  have := assembleChunksAux_gap cs 0 total.toNat buf total
    (by simpa using hlt) hf (by simpa using hp) (by simpa using hmiss)
  simpa using this

/-! ### Claim theorems -/

/-- C3: every `chunk` message whose claimed digest does not match the
digest of its payload is rejected with exactly one `error` event naming
the offending index; the chunk bytes are never stored (the session state
is returned unchanged) and the stored records are left in their current
state, for every possible payload content. -/
theorem c3_chunk_digest_mismatch_rejected
    (digest : Bytes → String) (uid : Nat) (req : ChunkMsg)
    (st : SessionState) (repo : Repo) (rawData : Bytes)
    (hdata : req.data = some rawData)
    (hmismatch : digest rawData ≠ req.checksum) :
    handleChunk digest uid (some req) st repo
      = (st, repo,
         [.error ("checksum mismatch chunk " ++ toString req.chunkIndex)]) := by
  simp [handleChunk, hdata, hmismatch]

/-- Witness for C3 at a concrete corrupted chunk. -/
theorem c3_chunk_digest_mismatch_rejected_witness :
    handleChunk toyDigest 1
      (some { fileUploadID := 5, chunkIndex := 0, totalChunks := 1,
              checksum := "nope", data := some [1, 2] })
      { chunks := [], totals := [] }
      { records := [], nextId := 0, verifiedChunks := [] }
      = ({ chunks := [], totals := [] },
         { records := [], nextId := 0, verifiedChunks := [] },
         [.error "checksum mismatch chunk 0"]) := by
  have h := c3_chunk_digest_mismatch_rejected toyDigest 1
    { fileUploadID := 5, chunkIndex := 0, totalChunks := 1,
      checksum := "nope", data := some [1, 2] }
    { chunks := [], totals := [] }
    { records := [], nextId := 0, verifiedChunks := [] }
    [1, 2] rfl (by decide)
  simpa using h

/-- Shape of the result of `handleChunk` on an accepted chunk (payload
decodes, digest matches, the upload id is known to the session): the
chunk is stored into the buffer by a last-write-wins map assignment and
one `progress` event reports the new buffer size over the declared
total. -/
theorem handleChunk_accept (digest : Bytes → String) (uid : Nat)
    (req : ChunkMsg) (st : SessionState) (repo : Repo) (raw : Bytes)
    (buf : Buf) (hd : req.data = some raw)
    (hc : digest raw = req.checksum)
    (hbuf : st.chunks.lookup req.fileUploadID = some buf) :
    (handleChunk digest uid (some req) st repo).1
      = { chunks := alInsert st.chunks req.fileUploadID
            (alInsert buf req.chunkIndex raw),
          totals := alInsert st.totals req.fileUploadID req.totalChunks } ∧
    (handleChunk digest uid (some req) st repo).2.2
      = [.progress req.fileUploadID (alInsert buf req.chunkIndex raw).length
          req.totalChunks
          (((alInsert buf req.chunkIndex raw).length : ℚ)
            / (req.totalChunks : ℚ) * 100) "uploading"] := by
  constructor <;> simp [handleChunk, hd, hc, hbuf]

/-- C9: sending the same chunk index twice, both times with a valid
matching digest, leaves the session buffer containing exactly the bytes
of the second send at that index (last write wins), and the
received-count reported by the second `progress` event equals the buffer
size after the first send — the index is counted once, never twice. -/
theorem c9_duplicate_chunk_last_write_wins (digest : Bytes → String)
    (uid : Nat) (req1 req2 : ChunkMsg) (st : SessionState) (repo : Repo)
    (buf0 : Buf) (d1 d2 : Bytes)
    (hid : req2.fileUploadID = req1.fileUploadID)
    (hidx : req2.chunkIndex = req1.chunkIndex)
    (hd1 : req1.data = some d1) (hc1 : digest d1 = req1.checksum)
    (hd2 : req2.data = some d2) (hc2 : digest d2 = req2.checksum)
    (hbuf : st.chunks.lookup req1.fileUploadID = some buf0) :
    ((handleChunk digest uid (some req2)
        (handleChunk digest uid (some req1) st repo).1
        (handleChunk digest uid (some req1) st repo).2.1).1.chunks.lookup
          req1.fileUploadID
      = some (alInsert (alInsert buf0 req1.chunkIndex d1)
          req1.chunkIndex d2)) ∧
    (alInsert (alInsert buf0 req1.chunkIndex d1) req1.chunkIndex d2).lookup
        req1.chunkIndex = some d2 ∧
    (alInsert (alInsert buf0 req1.chunkIndex d1) req1.chunkIndex d2).length
      = (alInsert buf0 req1.chunkIndex d1).length ∧
    (handleChunk digest uid (some req2)
        (handleChunk digest uid (some req1) st repo).1
        (handleChunk digest uid (some req1) st repo).2.1).2.2
      = [.progress req1.fileUploadID
          (alInsert buf0 req1.chunkIndex d1).length req2.totalChunks
          (((alInsert buf0 req1.chunkIndex d1).length : ℚ)
            / (req2.totalChunks : ℚ) * 100) "uploading"] := by
  obtain ⟨hst1, _⟩ :=
    handleChunk_accept digest uid req1 st repo d1 buf0 hd1 hc1 hbuf
  have hbuf1 : ((handleChunk digest uid (some req1) st repo).1).chunks.lookup
      req2.fileUploadID = some (alInsert buf0 req1.chunkIndex d1) := by
    rw [hst1, hid]
    exact lookup_alInsert_self _ _ _
  obtain ⟨hst2, hev2⟩ :=
    handleChunk_accept digest uid req2
      (handleChunk digest uid (some req1) st repo).1
      (handleChunk digest uid (some req1) st repo).2.1 d2
      (alInsert buf0 req1.chunkIndex d1) hd2 hc2 hbuf1
  have hlen := length_alInsert_alInsert_same buf0 req1.chunkIndex d1 d2
  refine ⟨?_, ?_, hlen, ?_⟩
  · rw [hst2, hst1, hid, hidx]
    conv_lhs => rw [show req1.fileUploadID = req2.fileUploadID from hid.symm]
    rw [hid]
    exact lookup_alInsert_self _ _ _
  · exact lookup_alInsert_self _ _ _
  · rw [hev2, hid, hidx, hlen]

/-- Witness for C9: chunk 0 sent twice with different valid payloads. -/
theorem c9_duplicate_chunk_last_write_wins_witness :
    ((handleChunk toyDigest 1
        (some { fileUploadID := 5, chunkIndex := 0, totalChunks := 2,
                checksum := toyDigest [9, 9], data := some [9, 9] })
        (handleChunk toyDigest 1
          (some { fileUploadID := 5, chunkIndex := 0, totalChunks := 2,
                  checksum := toyDigest [1, 2], data := some [1, 2] })
          { chunks := [(5, [])], totals := [] }
          { records := [], nextId := 0, verifiedChunks := [] }).1
        (handleChunk toyDigest 1
          (some { fileUploadID := 5, chunkIndex := 0, totalChunks := 2,
                  checksum := toyDigest [1, 2], data := some [1, 2] })
          { chunks := [(5, [])], totals := [] }
          { records := [], nextId := 0, verifiedChunks := [] }).2.1).1.chunks.lookup 5
      = some [(0, [9, 9])]) ∧
    ([(0, [9, 9])] : Buf).lookup 0 = some [9, 9] ∧
    ([(0, [9, 9])] : Buf).length = ([(0, [1, 2])] : Buf).length ∧
    (handleChunk toyDigest 1
        (some { fileUploadID := 5, chunkIndex := 0, totalChunks := 2,
                checksum := toyDigest [9, 9], data := some [9, 9] })
        (handleChunk toyDigest 1
          (some { fileUploadID := 5, chunkIndex := 0, totalChunks := 2,
                  checksum := toyDigest [1, 2], data := some [1, 2] })
          { chunks := [(5, [])], totals := [] }
          { records := [], nextId := 0, verifiedChunks := [] }).1
        (handleChunk toyDigest 1
          (some { fileUploadID := 5, chunkIndex := 0, totalChunks := 2,
                  checksum := toyDigest [1, 2], data := some [1, 2] })
          { chunks := [(5, [])], totals := [] }
          { records := [], nextId := 0, verifiedChunks := [] }).2.1).2.2
      = [.progress 5 1 2 ((1 : ℚ) / (2 : ℚ) * 100) "uploading"] := by
  have h := c9_duplicate_chunk_last_write_wins toyDigest 1
    { fileUploadID := 5, chunkIndex := 0, totalChunks := 2,
      checksum := toyDigest [1, 2], data := some [1, 2] }
    { fileUploadID := 5, chunkIndex := 0, totalChunks := 2,
      checksum := toyDigest [9, 9], data := some [9, 9] }
    { chunks := [(5, [])], totals := [] }
    { records := [], nextId := 0, verifiedChunks := [] }
    [] [1, 2] [9, 9] rfl rfl rfl rfl rfl rfl (by decide)
  simpa [alInsert] using h

/-- C4: for every byte sequence `B` split into chunks of any positive
size, and for every arrival order of those chunks (any permutation of
the indexed chunk list, each accepted by the same last-write-wins store
`handleChunk` performs), reconstruction returns exactly `B` — the
concatenation in index order, independent of arrival order — and the
digest verifier accepts the digest of `B` computed again from the same
input (the digest is a deterministic function of the bytes). -/
theorem c4_round_trip (digest : Bytes → String) (B : List Nat)
    (size : Nat) (hsize : 0 < size) (order : List (Int × Bytes))
    (hperm : order.Perm (indexChunks (splitChunks size B) 0)) :
    assembleChunks (insertAll [] order)
        ((splitChunks size B).length : Int) = (B, none) ∧
    verifyChecksum digest B (digest B) = true := by
  constructor
  · have hlook : ∀ (j : Nat) (hj : j < (splitChunks size B).length),
        (insertAll [] order).lookup (j : Int)
          = some ((splitChunks size B).get ⟨j, hj⟩) := by
      intro j hj
      apply lookup_insertAll_mem
      · exact (hperm.map Prod.fst).nodup_iff.mpr
          (indexChunks_keys_nodup (splitChunks size B) 0)
      · exact hperm.mem_iff.mpr
          (by simpa using indexChunks_mem (splitChunks size B) 0 j hj)
    rw [assembleChunks_all_present (splitChunks size B) (insertAll [] order)
      hlook]
    rw [flatten_splitChunks]
  · simp [verifyChecksum]

/-- Witness for C4: a five-byte file split in chunks of two bytes,
arriving in reversed order. -/
theorem c4_round_trip_witness :
    assembleChunks
        (insertAll [] [(2, [50]), (1, [30, 40]), (0, [10, 20])])
        ((splitChunks 2 [10, 20, 30, 40, 50]).length : Int)
      = ([10, 20, 30, 40, 50], none) ∧
    verifyChecksum toyDigest [10, 20, 30, 40, 50]
      (toyDigest [10, 20, 30, 40, 50]) = true :=
  c4_round_trip toyDigest [10, 20, 30, 40, 50] 2 (by decide)
    [(2, [50]), (1, [30, 40]), (0, [10, 20])] (by decide)

/-- C2 counterexample: with total 2 and chunk 1 never received, the
single error event emitted by `complete` carries the message
"missing chunk 1", not the message "chunk 1 missing" stated by the
claim. -/
theorem c2_missing_chunk_message_counterexample :
    (handleComplete toyDigest "up" 4 (some { fileUploadID := 3 })
        { chunks := [(3, [(0, [5, 6])])], totals := [(3, 2)] }
        { records := [{ id := 3, userID := 4, folderID := none,
                        fileName := "doc.txt", fileType := "",
                        fileSize := 4, totalChunks := 2, checksum := "c",
                        status := "uploading", filePath := "",
                        relPath := "" }],
          nextId := 4, verifiedChunks := [] } []).2.2.2
      = [.error "missing chunk 1"] ∧
    "missing chunk 1" ≠ "chunk 1 missing" := by
  decide

/-- C2 (amended): for every `complete` whose buffer holds exactly the
chunks `cs` at indices `0, …, cs.length - 1` while index `cs.length` is
still missing and below the effective total, the handler fails with one
`error` event whose message is "missing chunk <i>" for the first missing
index `i` (the code's wording, with the index in the middle rather than
the "chunk <i> missing" of the claim), reconstruction writes nothing
past the gap (the output file holds exactly the chunks before it), and
both the stored records and the session state are left unchanged. -/
theorem c2_missing_chunk_amended (digest : Bytes → String) (dir : String)
    (uid : Nat) (req : CompleteMsg) (st : SessionState) (repo : Repo)
    (fs : Fs) (fu : FileUpload) (fileChunks : Buf) (cs : List Bytes)
    (hget : repo.getByID req.fileUploadID = some fu)
    (howner : fu.userID = uid)
    (hbuf : st.chunks.lookup req.fileUploadID = some fileChunks)
    (hne : fileChunks.length ≠ 0)
    (hlt : (cs.length : Int) < effTotal fu fileChunks)
    (hp : ∀ (j : Nat) (hj : j < cs.length),
        fileChunks.lookup (j : Int) = some (cs.get ⟨j, hj⟩))
    (hmiss : fileChunks.lookup (cs.length : Int) = none) :
    handleComplete digest dir uid (some req) st repo fs
      = (st, repo,
         alInsert fs (buildPath dir uid (freezeTotal fu fileChunks))
           cs.flatten,
         [.error ("missing chunk " ++ toString cs.length)]) := by
  have hasm := assembleChunks_gap cs fileChunks (effTotal fu fileChunks)
    hlt hp hmiss
  simp [handleComplete, hget, howner, hbuf, hne, hasm]

/-- Witness for the amended C2: total 2, chunk 1 missing. -/
theorem c2_missing_chunk_amended_witness :
    handleComplete toyDigest "up" 4 (some { fileUploadID := 3 })
        { chunks := [(3, [(0, [5, 6])])], totals := [(3, 2)] }
        { records := [{ id := 3, userID := 4, folderID := none,
                        fileName := "doc.txt", fileType := "",
                        fileSize := 4, totalChunks := 2, checksum := "c",
                        status := "uploading", filePath := "",
                        relPath := "" }],
          nextId := 4, verifiedChunks := [] } []
      = ({ chunks := [(3, [(0, [5, 6])])], totals := [(3, 2)] },
         { records := [{ id := 3, userID := 4, folderID := none,
                         fileName := "doc.txt", fileType := "",
                         fileSize := 4, totalChunks := 2, checksum := "c",
                         status := "uploading", filePath := "",
                         relPath := "" }],
           nextId := 4, verifiedChunks := [] },
         [("up/4/doc.txt", [5, 6])],
         [.error "missing chunk 1"]) := by
  have h := c2_missing_chunk_amended toyDigest "up" 4 { fileUploadID := 3 }
    { chunks := [(3, [(0, [5, 6])])], totals := [(3, 2)] }
    { records := [{ id := 3, userID := 4, folderID := none,
                    fileName := "doc.txt", fileType := "",
                    fileSize := 4, totalChunks := 2, checksum := "c",
                    status := "uploading", filePath := "",
                    relPath := "" }],
      nextId := 4, verifiedChunks := [] } []
    { id := 3, userID := 4, folderID := none,
      fileName := "doc.txt", fileType := "",
      fileSize := 4, totalChunks := 2, checksum := "c",
      status := "uploading", filePath := "",
      relPath := "" }
    [(0, [5, 6])] [[5, 6]]
    (by decide) rfl (by decide) (by decide) (by decide)
    (by decide) (by decide)
  simpa [alInsert, buildPath, freezeTotal] using h

/-- C1 (code bug): a `complete` whose assembled bytes fail the
`init`-time whole-file digest does set the record to `failed` and emit
the `error` event "file checksum mismatch", but the fully assembled file
remains on disk at the would-be final destination path — it is created
there before verification and never removed (the REST variant removes
it; the WebSocket handler does not).  The last conjunct identifies the
leaked path with the path the success branch would have published. -/
theorem c1_failed_checksum_leaves_file_at_final_path :
    handleComplete toyDigest "up" 1 (some { fileUploadID := 1 })
        { chunks := [(1, [(0, [7, 8, 9])])], totals := [(1, 1)] }
        { records := [{ id := 1, userID := 1, folderID := none,
                        fileName := "a.txt", fileType := "",
                        fileSize := 3, totalChunks := 1,
                        checksum := "bogus", status := "uploading",
                        filePath := "", relPath := "" }],
          nextId := 2, verifiedChunks := [] } []
      = ({ chunks := [(1, [(0, [7, 8, 9])])], totals := [(1, 1)] },
         { records := [{ id := 1, userID := 1, folderID := none,
                         fileName := "a.txt", fileType := "",
                         fileSize := 3, totalChunks := 1,
                         checksum := "bogus", status := "failed",
                         filePath := "", relPath := "" }],
           nextId := 2, verifiedChunks := [] },
         [("up/1/a.txt", [7, 8, 9])],
         [.error "file checksum mismatch"]) ∧
    buildPath "up" 1 { id := 1, userID := 1, folderID := none,
                       fileName := "a.txt", fileType := "", fileSize := 3,
                       totalChunks := 1, checksum := "bogus",
                       status := "failed", filePath := "", relPath := "" }
      = "up/1/a.txt" := by
  decide

/-- C6 (code bug): when reconstruction fails on a missing chunk, the
partial output (the chunks before the gap) has already been written to
the final destination path and is left there: the caller can observe a
partially-written file under the final name after the failed
`complete`. -/
theorem c6_missing_chunk_leftover_file_at_final_path :
    handleComplete toyDigest "up" 2 (some { fileUploadID := 9 })
        { chunks := [(9, [(0, [42])])], totals := [(9, 2)] }
        { records := [{ id := 9, userID := 2, folderID := none,
                        fileName := "b.bin", fileType := "",
                        fileSize := 2, totalChunks := 2, checksum := "c",
                        status := "uploading", filePath := "",
                        relPath := "" }],
          nextId := 10, verifiedChunks := [] } []
      = ({ chunks := [(9, [(0, [42])])], totals := [(9, 2)] },
         { records := [{ id := 9, userID := 2, folderID := none,
                         fileName := "b.bin", fileType := "",
                         fileSize := 2, totalChunks := 2, checksum := "c",
                         status := "uploading", filePath := "",
                         relPath := "" }],
           nextId := 10, verifiedChunks := [] },
         [("up/2/b.bin", [42])],
         [.error "missing chunk 1"]) ∧
    buildPath "up" 2 { id := 9, userID := 2, folderID := none,
                       fileName := "b.bin", fileType := "", fileSize := 2,
                       totalChunks := 2, checksum := "c",
                       status := "uploading", filePath := "",
                       relPath := "" }
      = "up/2/b.bin" := by
  decide

/-- C6 (amended): when reconstruction hits a missing index the loop does
fail fast — nothing past the gap is ever written, the stored records and
the session state are untouched, and one error event is emitted — but
the chunks before the gap have already been streamed to the final
destination path, where the partial file remains observable. -/
theorem c6_failfast_leftover_output_amended (digest : Bytes → String)
    (dir : String) (uid : Nat) (req : CompleteMsg) (st : SessionState)
    (repo : Repo) (fs : Fs) (fu : FileUpload) (fileChunks : Buf)
    (cs : List Bytes)
    (hget : repo.getByID req.fileUploadID = some fu)
    (howner : fu.userID = uid)
    (hbuf : st.chunks.lookup req.fileUploadID = some fileChunks)
    (hne : fileChunks.length ≠ 0)
    (hlt : (cs.length : Int) < effTotal fu fileChunks)
    (hp : ∀ (j : Nat) (hj : j < cs.length),
        fileChunks.lookup (j : Int) = some (cs.get ⟨j, hj⟩))
    (hmiss : fileChunks.lookup (cs.length : Int) = none) :
    ((handleComplete digest dir uid (some req) st repo fs).2.2.1
      = alInsert fs (buildPath dir uid (freezeTotal fu fileChunks))
          cs.flatten) ∧
    (handleComplete digest dir uid (some req) st repo fs).2.1 = repo ∧
    (handleComplete digest dir uid (some req) st repo fs).1 = st ∧
    (handleComplete digest dir uid (some req) st repo fs).2.2.2
      = [.error ("missing chunk " ++ toString cs.length)] := by
  have hasm := assembleChunks_gap cs fileChunks (effTotal fu fileChunks)
    hlt hp hmiss
  refine ⟨?_, ?_, ?_, ?_⟩ <;>
    simp [handleComplete, hget, howner, hbuf, hne, hasm]

/-- Witness for the amended C6: three chunks declared, chunk 2 missing;
the file at the final path holds the first two chunks only. -/
theorem c6_failfast_leftover_output_amended_witness :
    ((handleComplete toyDigest "store" 7 (some { fileUploadID := 14 })
        { chunks := [(14, [(0, [1]), (1, [2, 3])])], totals := [(14, 3)] }
        { records := [{ id := 14, userID := 7, folderID := none,
                        fileName := "p.dat", fileType := "",
                        fileSize := 5, totalChunks := 3, checksum := "q",
                        status := "uploading", filePath := "",
                        relPath := "" }],
          nextId := 15, verifiedChunks := [] } []).2.2.1
      = [("store/7/p.dat", [1, 2, 3])]) ∧
    (handleComplete toyDigest "store" 7 (some { fileUploadID := 14 })
        { chunks := [(14, [(0, [1]), (1, [2, 3])])], totals := [(14, 3)] }
        { records := [{ id := 14, userID := 7, folderID := none,
                        fileName := "p.dat", fileType := "",
                        fileSize := 5, totalChunks := 3, checksum := "q",
                        status := "uploading", filePath := "",
                        relPath := "" }],
          nextId := 15, verifiedChunks := [] } []).2.1
      = { records := [{ id := 14, userID := 7, folderID := none,
                        fileName := "p.dat", fileType := "",
                        fileSize := 5, totalChunks := 3, checksum := "q",
                        status := "uploading", filePath := "",
                        relPath := "" }],
          nextId := 15, verifiedChunks := [] } ∧
    (handleComplete toyDigest "store" 7 (some { fileUploadID := 14 })
        { chunks := [(14, [(0, [1]), (1, [2, 3])])], totals := [(14, 3)] }
        { records := [{ id := 14, userID := 7, folderID := none,
                        fileName := "p.dat", fileType := "",
                        fileSize := 5, totalChunks := 3, checksum := "q",
                        status := "uploading", filePath := "",
                        relPath := "" }],
          nextId := 15, verifiedChunks := [] } []).1
      = { chunks := [(14, [(0, [1]), (1, [2, 3])])], totals := [(14, 3)] } ∧
    (handleComplete toyDigest "store" 7 (some { fileUploadID := 14 })
        { chunks := [(14, [(0, [1]), (1, [2, 3])])], totals := [(14, 3)] }
        { records := [{ id := 14, userID := 7, folderID := none,
                        fileName := "p.dat", fileType := "",
                        fileSize := 5, totalChunks := 3, checksum := "q",
                        status := "uploading", filePath := "",
                        relPath := "" }],
          nextId := 15, verifiedChunks := [] } []).2.2.2
      = [.error "missing chunk 2"] := by
  have h := c6_failfast_leftover_output_amended toyDigest "store" 7
    { fileUploadID := 14 }
    { chunks := [(14, [(0, [1]), (1, [2, 3])])], totals := [(14, 3)] }
    { records := [{ id := 14, userID := 7, folderID := none,
                    fileName := "p.dat", fileType := "",
                    fileSize := 5, totalChunks := 3, checksum := "q",
                    status := "uploading", filePath := "",
                    relPath := "" }],
      nextId := 15, verifiedChunks := [] } []
    { id := 14, userID := 7, folderID := none,
      fileName := "p.dat", fileType := "",
      fileSize := 5, totalChunks := 3, checksum := "q",
      status := "uploading", filePath := "",
      relPath := "" }
    [(0, [1]), (1, [2, 3])] [[1], [2, 3]]
    (by decide) rfl (by decide) (by decide) (by decide)
    (by decide) (by decide)
  simpa [alInsert, buildPath, freezeTotal] using h

/-- C5 (code bug): the REST `VerifyChunks` endpoint returns the uploaded
chunk indices of any upload id to any authenticated caller: here the
record with id 7 is owned by user 2, the caller is user 1, and the
handler answers with the indices instead of a forbidden error. -/
theorem c5_verify_chunks_cross_owner_read :
    (({ records := [{ id := 7, userID := 2, folderID := none,
                      fileName := "secret.txt", fileType := "",
                      fileSize := 3, totalChunks := 3, checksum := "s",
                      status := "uploading", filePath := "",
                      relPath := "" }],
        nextId := 8,
        verifiedChunks := [(7, [0, 1, 2])] } : Repo).getByID 7).map
        FileUpload.userID = some 2 ∧
    (1 : Nat) ≠ 2 ∧
    verifyChunksHandler 1
        { records := [{ id := 7, userID := 2, folderID := none,
                        fileName := "secret.txt", fileType := "",
                        fileSize := 3, totalChunks := 3, checksum := "s",
                        status := "uploading", filePath := "",
                        relPath := "" }],
          nextId := 8, verifiedChunks := [(7, [0, 1, 2])] }
        (some 7)
      = .ok [0, 1, 2] 3 := by
  decide

/-- C8 counterexample: a `complete` that fails the whole-file digest
check is a terminal outcome (the record transitions to `failed`), yet the
session's chunk buffer for that id is NOT discarded: the returned session
state still holds the chunk bytes under id 11. -/
theorem c8_buffer_retained_after_failed_complete :
    handleComplete toyDigest "up" 3 (some { fileUploadID := 11 })
        { chunks := [(11, [(0, [1, 2, 3])])], totals := [(11, 1)] }
        { records := [{ id := 11, userID := 3, folderID := none,
                        fileName := "c.txt", fileType := "",
                        fileSize := 3, totalChunks := 1, checksum := "xx",
                        status := "uploading", filePath := "",
                        relPath := "" }],
          nextId := 12, verifiedChunks := [] } []
      = ({ chunks := [(11, [(0, [1, 2, 3])])], totals := [(11, 1)] },
         { records := [{ id := 11, userID := 3, folderID := none,
                         fileName := "c.txt", fileType := "",
                         fileSize := 3, totalChunks := 1,
                         checksum := "xx", status := "failed",
                         filePath := "", relPath := "" }],
           nextId := 12, verifiedChunks := [] },
         [("up/3/c.txt", [1, 2, 3])],
         [.error "file checksum mismatch"]) ∧
    (handleComplete toyDigest "up" 3 (some { fileUploadID := 11 })
        { chunks := [(11, [(0, [1, 2, 3])])], totals := [(11, 1)] }
        { records := [{ id := 11, userID := 3, folderID := none,
                        fileName := "c.txt", fileType := "",
                        fileSize := 3, totalChunks := 1, checksum := "xx",
                        status := "uploading", filePath := "",
                        relPath := "" }],
          nextId := 12, verifiedChunks := [] } []).1.chunks.lookup 11
      = some [(0, [1, 2, 3])] := by
  decide

/-- C8 (amended): after a `complete` that reconstructs successfully, the
buffer for the id is discarded exactly when the whole-file digest check
passes (the `completed` terminal outcome); when the digest check fails
(the `failed` terminal outcome) the session state — buffer included — is
left untouched, so the chunk bytes are retained past that terminal
transition. -/
theorem c8_amended_buffer_discard (digest : Bytes → String)
    (dir : String) (uid : Nat) (req : CompleteMsg) (st : SessionState)
    (repo : Repo) (fs : Fs) (fu : FileUpload) (fileChunks : Buf)
    (data : Bytes)
    (hget : repo.getByID req.fileUploadID = some fu)
    (howner : fu.userID = uid)
    (hbuf : st.chunks.lookup req.fileUploadID = some fileChunks)
    (hne : fileChunks.length ≠ 0)
    (hasm : assembleChunks fileChunks (effTotal fu fileChunks)
      = (data, none)) :
    (digest data = (freezeTotal fu fileChunks).checksum →
      (handleComplete digest dir uid (some req) st repo fs).1.chunks.lookup
        req.fileUploadID = none) ∧
    (digest data ≠ (freezeTotal fu fileChunks).checksum →
      (handleComplete digest dir uid (some req) st repo fs).1 = st) := by
  constructor
  · intro hok
    simp [handleComplete, hget, howner, hbuf, hne, hasm,
      lookup_alInsert_self, hok, lookup_alErase_self]
  · intro hbad
    simp [handleComplete, hget, howner, hbuf, hne, hasm,
      lookup_alInsert_self, hbad]

/-- Witness for the amended C8: on the successful terminal outcome the
buffer under id 21 is gone; on the digest-failure outcome the state
would be unchanged. -/
theorem c8_amended_buffer_discard_witness :
    (handleComplete toyDigest "up" 5 (some { fileUploadID := 21 })
        { chunks := [(21, [(0, [7])])], totals := [(21, 1)] }
        { records := [{ id := 21, userID := 5, folderID := none,
                        fileName := "d", fileType := "", fileSize := 1,
                        totalChunks := 1, checksum := "1-28",
                        status := "uploading", filePath := "",
                        relPath := "" }],
          nextId := 22, verifiedChunks := [] } []).1.chunks.lookup 21
      = none :=
  (c8_amended_buffer_discard toyDigest "up" 5 { fileUploadID := 21 }
    { chunks := [(21, [(0, [7])])], totals := [(21, 1)] }
    { records := [{ id := 21, userID := 5, folderID := none,
                    fileName := "d", fileType := "", fileSize := 1,
                    totalChunks := 1, checksum := "1-28",
                    status := "uploading", filePath := "",
                    relPath := "" }],
      nextId := 22, verifiedChunks := [] } []
    { id := 21, userID := 5, folderID := none,
      fileName := "d", fileType := "", fileSize := 1,
      totalChunks := 1, checksum := "1-28", status := "uploading",
      filePath := "", relPath := "" }
    [(0, [7])] [7]
    (by decide) rfl (by decide) (by decide) (by decide)).1 (by decide)

/-- C10 counterexample: after chunk 0 is already buffered, an accepted
chunk with index 1 but declared total 1 makes the emitted `progress`
percent equal to 200, outside the 0–100 range stated by the claim. -/
theorem c10_percent_exceeds_100_counterexample :
    (handleChunk toyDigest 1
        (some { fileUploadID := 6, chunkIndex := 1, totalChunks := 1,
                checksum := "1-13", data := some [2] })
        { chunks := [(6, [(0, [1])])], totals := [(6, 1)] }
        { records := [], nextId := 0, verifiedChunks := [] }).2.2
      = [.progress 6 2 1 200 "uploading"] ∧
    ¬ ((200 : ℚ) ≤ 100) := by
  constructor
  · have h := (handleChunk_accept toyDigest 1
      { fileUploadID := 6, chunkIndex := 1, totalChunks := 1,
        checksum := "1-13", data := some [2] }
      { chunks := [(6, [(0, [1])])], totals := [(6, 1)] }
      { records := [], nextId := 0, verifiedChunks := [] }
      [2] [(0, [1])] rfl (by decide) (by decide)).2
    rw [h]
    norm_num [alInsert]
  · norm_num

/-- C10 (amended): the `progress` event emitted after an accepted chunk
reports the buffer size divided by the total declared in that `chunk`
message (not the record's frozen total), times 100; the percent lies in
the 0–100 range whenever the declared total is positive and at least the
buffer size — the counterexample shows it exceeds 100 otherwise. -/
theorem c10_percent_in_range_amended (digest : Bytes → String)
    (uid : Nat) (req : ChunkMsg) (st : SessionState) (repo : Repo)
    (raw : Bytes) (buf : Buf)
    (hd : req.data = some raw) (hc : digest raw = req.checksum)
    (hbuf : st.chunks.lookup req.fileUploadID = some buf)
    (hpos : 0 < req.totalChunks)
    (hle : ((alInsert buf req.chunkIndex raw).length : Int)
      ≤ req.totalChunks) :
    (handleChunk digest uid (some req) st repo).2.2
      = [.progress req.fileUploadID
          (alInsert buf req.chunkIndex raw).length req.totalChunks
          (((alInsert buf req.chunkIndex raw).length : ℚ)
            / (req.totalChunks : ℚ) * 100) "uploading"] ∧
    0 ≤ ((alInsert buf req.chunkIndex raw).length : ℚ)
          / (req.totalChunks : ℚ) * 100 ∧
    ((alInsert buf req.chunkIndex raw).length : ℚ)
          / (req.totalChunks : ℚ) * 100 ≤ 100 := by
  have ht : (0 : ℚ) < (req.totalChunks : ℚ) := by exact_mod_cast hpos
  have hu : (0 : ℚ) ≤ ((alInsert buf req.chunkIndex raw).length : ℚ) := by
    positivity
  have hle' : ((alInsert buf req.chunkIndex raw).length : ℚ)
      ≤ (req.totalChunks : ℚ) := by exact_mod_cast hle
  refine ⟨(handleChunk_accept digest uid req st repo raw buf hd hc hbuf).2,
    ?_, ?_⟩
  · exact mul_nonneg (div_nonneg hu ht.le) (by norm_num)
  · calc ((alInsert buf req.chunkIndex raw).length : ℚ)
          / (req.totalChunks : ℚ) * 100
        ≤ 1 * 100 := by
          apply mul_le_mul_of_nonneg_right ((div_le_one ht).mpr hle')
          norm_num
      _ = 100 := by norm_num

/-- Witness for the amended C10: one accepted chunk out of one declared
gives percent 100, inside the range. -/
theorem c10_percent_in_range_amended_witness :
    (handleChunk toyDigest 1
        (some { fileUploadID := 8, chunkIndex := 0, totalChunks := 1,
                checksum := "1-13", data := some [2] })
        { chunks := [(8, [])], totals := [] }
        { records := [], nextId := 0, verifiedChunks := [] }).2.2
      = [.progress 8 1 1 ((1 : ℚ) / (1 : ℚ) * 100) "uploading"] ∧
    0 ≤ ((1 : ℚ) / (1 : ℚ) * 100) ∧
    ((1 : ℚ) / (1 : ℚ) * 100) ≤ 100 := by
  have h := c10_percent_in_range_amended toyDigest 1
    { fileUploadID := 8, chunkIndex := 0, totalChunks := 1,
      checksum := "1-13", data := some [2] }
    { chunks := [(8, [])], totals := [] }
    { records := [], nextId := 0, verifiedChunks := [] }
    [2] [] rfl (by decide) (by decide) (by decide) (by decide)
  simpa [alInsert] using h

/-- C7: every inbound message processed by the session loop — `init`,
`chunk`, `complete`, an unknown type, or a malformed payload — produces
exactly one outbound event, for every session state, store and
filesystem. -/
theorem c7_exactly_one_event (digest : Bytes → String) (dir : String)
    (uid : Nat) (env : Envelope) (st : SessionState) (repo : Repo)
    (fs : Fs) :
    (step digest dir uid env st repo fs).2.2.2.length = 1 := by
  cases env <;>
    simp only [step, handleInit, handleChunk, handleComplete] <;>
    repeat' split
  all_goals rfl

end FileTransfer
